import Mathlib

/-!
Shallow embedding of the ADERM server (src/supabase/functions/server/index.tsx
and its email helpers).  The key-value store is modelled as in-memory lists
inside `ServerState`; `kv.set` on a record key is replace-by-key-or-append.
Timestamps (JS `Date.now()`) are modelled as a `Nat` clock carried in the
state and advanced by one tick per call, so audit-log keys
(`audit_log:now:uid`) are always fresh and the audit log is an append-only
list.  Random values (OTP codes, fresh ids, the email relay outcome and the
SharePoint relay outcome) are oracle parameters of the handlers.
-/

namespace ADERM

structure UserProfile where
  id : String
  email : String
  name : String
  role : String
  created_at : Nat
  email_verified : Bool
  deriving DecidableEq, Repr

structure Request where
  id : String
  title : String
  description : String
  due_date : String
  status : String
  created_by : String
  assigned_to : Option String
  assigned_to_email : String
  department : String
  cc_emails : List String
  hr_confidential : Bool
  pending_assignment : Bool
  created_at : Nat
  updated_at : Nat
  deriving DecidableEq, Repr

structure Document where
  id : String
  request_id : String
  filename : String
  file_path : String
  uploaded_by : String
  uploaded_at : Nat
  comments : String
  deriving DecidableEq, Repr

structure OTPRecord where
  code : String
  email : String
  user_id : Option String
  created_at : Nat
  expires_at : Nat
  verified : Bool
  deriving DecidableEq, Repr

structure SessionRecord where
  user_id : String
  email : String
  created_at : Nat
  expires_at : Nat
  login_method : String
  deriving DecidableEq, Repr

structure SharePointResult where
  filename : String
  success : Bool
  deriving DecidableEq, Repr

inductive AuditDetails where
  | userLoginOtp (email : String)
  | autoAssignedRequest (email requestTitle createdBy : String)
  | userCreated (email name role : String)
  | requestCreated (title assignedToEmail department : String) (ccEmails : List String)
  | autoAssignedOnUpload (email requestTitle : String)
  | documentUploaded (filename comments : String)
  | statusUpdated (oldStatus newStatus : String) (hrConfidential : Bool)
  | documentUploadedSharepoint (filename department statusTrigger : String)
  | sharepointUploadSummary (totalDocuments successfulUploads failedUploads : Nat)
      (results : List SharePointResult)
  deriving DecidableEq, Repr

structure AuditEntry where
  action : String
  user_id : String
  request_id : Option String
  document_id : Option String
  timestamp : Nat
  details : AuditDetails
  deriving DecidableEq, Repr

/-- One attempted outbound email (the observable call into
`sendEmailViaSupabase`): recipient list, subject, and which template
produced it. -/
structure EmailMsg where
  recipients : List String
  subject : String
  kind : String
  deriving DecidableEq, Repr

structure ApiError where
  code : Nat
  msg : String
  confidential : Bool
  deriving DecidableEq, Repr

inductive ApiResult (α : Type) where
  | ok (val : α)
  | err (e : ApiError)
  deriving DecidableEq, Repr

structure ServerState where
  users : List UserProfile
  requests : List Request
  documents : List Document
  loginOtps : List (String × OTPRecord)
  signupOtps : List (String × OTPRecord)
  sessions : List (String × SessionRecord)
  auditLog : List AuditEntry
  emailLog : List EmailMsg
  clock : Nat
  deriving DecidableEq, Repr

/-- ASCII lowercasing over the character list (JS `toLowerCase` on the
inputs this system handles); kernel-reducible. -/
def lowerStr (s : String) : String := ⟨s.data.map Char.toLower⟩

/-- Suffix test over character lists; kernel-reducible `endsWith`. -/
def isSuffix (suf s : List Char) : Bool :=
  (List.take suf.length s.reverse) == suf.reverse

def endsWithStr (s suffix : String) : Bool := isSuffix suffix.data s.data

/-- Drop the last n characters; kernel-reducible `dropRight`. -/
def dropRightStr (s : String) (n : Nat) : String :=
  ⟨s.data.take (s.data.length - n)⟩

def trimCharList (l : List Char) : List Char :=
  ((l.dropWhile Char.isWhitespace).reverse.dropWhile Char.isWhitespace).reverse

/-- Strip surrounding whitespace; kernel-reducible `trim`. -/
def trimStr (s : String) : String := ⟨trimCharList s.data⟩

/-- `kv.set` on an association list: replace the value at the key if present,
otherwise append. -/
def kvSet {α : Type} (store : List (String × α)) (k : String) (v : α) :
    List (String × α) :=
  if store.any (fun p => p.1 == k) then
    store.map (fun p => if p.1 == k then (k, v) else p)
  else
    store ++ [(k, v)]

/-- `kv.get` on an association list. -/
def kvGet {α : Type} (store : List (String × α)) (k : String) : Option α :=
  (store.find? (fun p => p.1 == k)).map Prod.snd

/-- `kv.del` on an association list. -/
def kvDel {α : Type} (store : List (String × α)) (k : String) :
    List (String × α) :=
  store.filter (fun p => !(p.1 == k))

/-- `kv.set` of a request record under key `request:id` (requests are listed
by their `id` field). -/
def setRequest (rs : List Request) (r : Request) : List Request :=
  if rs.any (fun x => x.id == r.id) then
    rs.map (fun x => if x.id == r.id then r else x)
  else
    rs ++ [r]

def getRequest (rs : List Request) (rid : String) : Option Request :=
  rs.find? (fun x => x.id == rid)

def findUser (users : List UserProfile) (uid : String) : Option UserProfile :=
  users.find? (fun u => u.id == uid)

/-- Case-insensitive user lookup by email, as in
`allUsers.find(u => u.email.toLowerCase() === email.toLowerCase())`. -/
def findUserByEmail (users : List UserProfile) (email : String) :
    Option UserProfile :=
  users.find? (fun u => lowerStr u.email == lowerStr email)

/-- The local part of `/^[^\s@]+@ecobank\.com$/`: nonempty, no whitespace,
no at-sign. -/
def validLocalPart (localPart : String) : Bool :=
  localPart.length > 0 &&
    localPart.toList.all (fun ch => !(ch == '@') && !ch.isWhitespace)

/-- The case-insensitive domain check `/^[^\s@]+@ecobank\.com$/i` used by
the two send-OTP endpoints. -/
def isEcobankEmailCI (email : String) : Bool :=
  let low := lowerStr email
  endsWithStr low "@ecobank.com" &&
    validLocalPart (dropRightStr low "@ecobank.com".length)

/-- The case-sensitive domain check `/^[^\s@]+@ecobank\.com$/` used by
verify-otp-signup. -/
def isEcobankEmailCS (email : String) : Bool :=
  endsWithStr email "@ecobank.com" &&
    validLocalPart (dropRightStr email "@ecobank.com".length)

/-- `kv.set` of a user profile under key `user:id`. -/
def setUser (us : List UserProfile) (u : UserProfile) : List UserProfile :=
  if us.any (fun x => x.id == u.id) then
    us.map (fun x => if x.id == u.id then u else x)
  else
    us ++ [u]

/-- The JSON body of a successful POST /send-otp response. -/
structure SendOtpResp where
  success : Bool
  message : String
  email_sent : Bool
  debug_otp : String
  deriving DecidableEq, Repr

/-- POST /send-otp (login OTP request).  `otp` is the generated 6-digit code
(`Math.random` oracle) and `emailOk` is the outcome of the email relay call
(`triggerOTPEmail` succeeding or not). -/
def sendOtp (s : ServerState) (email otp : String) (emailOk : Bool) :
    ServerState × ApiResult SendOtpResp :=
  if email == "" then (s, .err ⟨400, "Email is required", false⟩)
  else if !isEcobankEmailCI email then
    (s, .err ⟨400, "Please use your Ecobank email address (@ecobank.com)", false⟩)
  else
    match findUserByEmail s.users email with
    | none => (s, .err ⟨404, "Account not found. Please sign up first.", false⟩)
    | some existingUser =>
      let otpKey := "login_otp:" ++ lowerStr email
      let otpRec : OTPRecord :=
        ⟨otp, email, some existingUser.id, s.clock, s.clock + 600000, false⟩
      let s₁ := { s with
        loginOtps := kvSet s.loginOtps otpKey otpRec,
        emailLog := s.emailLog ++
          [⟨[email], "ADERM - Login Verification Code", "otp_login"⟩],
        clock := s.clock + 1 }
      (s₁, .ok ⟨true, "Login OTP generated successfully", emailOk, otp⟩)

/-- The JSON body of a successful POST /verify-login-otp response. -/
structure LoginResp where
  user : UserProfile
  session_token : String
  deriving DecidableEq, Repr

/-- Profile resolution of POST /verify-login-otp: first by the OTP record's
`user_id`, then case-insensitively by email. -/
def resolveLoginProfile (s : ServerState) (otpRec : OTPRecord) (email : String) :
    Option UserProfile :=
  let byId := match otpRec.user_id with
    | some uid => findUser s.users uid
    | none => none
  match byId with
  | some p => some p
  | none => findUserByEmail s.users email

/-- POST /verify-login-otp.  `rand` is the random suffix of the session
token.  The current time (`new Date()`) is `s.clock`. -/
def verifyLoginOtp (s : ServerState) (email otp rand : String) :
    ServerState × ApiResult LoginResp :=
  if email == "" || otp == "" then
    (s, .err ⟨400, "Email and OTP are required", false⟩)
  else
    let otpKey := "login_otp:" ++ lowerStr email
    match kvGet s.loginOtps otpKey with
    | none => (s, .err ⟨400, "Invalid or expired login code", false⟩)
    | some otpRec =>
      if s.clock > otpRec.expires_at then
        ({ s with loginOtps := kvDel s.loginOtps otpKey },
         .err ⟨400, "Login code has expired. Please request a new one.", false⟩)
      else if otpRec.verified then
        (s, .err ⟨400, "Login code has already been used", false⟩)
      else if !(otpRec.code == otp) then
        (s, .err ⟨400, "Invalid login code", false⟩)
      else
        match resolveLoginProfile s otpRec email with
        | none => (s, .err ⟨404, "User profile not found", false⟩)
        | some userProfile =>
          let sessionToken := "otp_session_" ++ toString s.clock ++ "_" ++ rand
          let sess : SessionRecord :=
            ⟨userProfile.id, email, s.clock, s.clock + 3600000, "otp"⟩
          let entry : AuditEntry :=
            ⟨"user_login_otp", userProfile.id, none, none, s.clock,
             .userLoginOtp email⟩
          ({ s with
            sessions := kvSet s.sessions sessionToken sess,
            loginOtps := kvDel s.loginOtps otpKey,
            auditLog := s.auditLog ++ [entry],
            clock := s.clock + 1 },
           .ok ⟨userProfile, sessionToken⟩)

/-- The AuditLog entry written for each request reassigned during signup. -/
def autoAssignEntry (userId email : String) (r : Request) (t : Nat) : AuditEntry :=
  ⟨"auto_assigned_request", userId, some r.id, none, t,
   .autoAssignedRequest email r.title r.created_by⟩

/-- The reassignment loop of POST /verify-otp-signup: each pending request
assigned to the new email is rewritten with `assigned_to := userId` and
`pending_assignment := false`, and one `auto_assigned_request` entry is
logged per request. -/
def applyReassign (userId email : String) (st : ServerState) :
    List Request → ServerState
  | [] => st
  | r :: rest =>
    let r' := { r with
      assigned_to := some userId,
      pending_assignment := false,
      updated_at := st.clock }
    let st' := { st with
      requests := setRequest st.requests r',
      auditLog := st.auditLog ++ [autoAssignEntry userId email r st.clock],
      clock := st.clock + 1 }
    applyReassign userId email st' rest

/-- The JSON body of a successful POST /verify-otp-signup response. -/
structure SignupResp where
  userId : String
  email : String
  name : String
  role : String
  pending_requests_assigned : Nat
  deriving DecidableEq, Repr

/-- The success path of POST /verify-otp-signup, after all validation and
OTP checks have passed: create the profile, delete the OTP, reassign
pending requests when the new role is auditee, log user_created and send
the welcome email. -/
def verifySignupOk (s : ServerState) (email name userRole freshId : String) :
    ServerState × ApiResult SignupResp :=
  let newUser : UserProfile := ⟨freshId, email, trimStr name, userRole, s.clock, true⟩
  let otpKey := "signup_otp:" ++ lowerStr email
  let s₁ := { s with
    users := setUser s.users newUser,
    signupOtps := kvDel s.signupOtps otpKey,
    clock := s.clock + 1 }
  let pendingList :=
    if userRole == "auditee" then
      s₁.requests.filter (fun r => r.assigned_to_email == email && r.pending_assignment)
    else []
  let s₂ := applyReassign freshId email s₁ pendingList
  let userEntry : AuditEntry :=
    ⟨"user_created", freshId, none, none, s₂.clock,
     .userCreated email (trimStr name) userRole⟩
  let s₃ := { s₂ with
    auditLog := s₂.auditLog ++ [userEntry],
    emailLog := s₂.emailLog ++
      [⟨[email], "Welcome to ADERM - Audit Document Exchange & Request Management", "welcome"⟩],
    clock := s₂.clock + 1 }
  (s₃, .ok ⟨freshId, email, trimStr name, userRole, pendingList.length⟩)

/-- POST /verify-otp-signup.  `freshId` is the id generated for the new user
by the auth backend (oracle); the Supabase Auth createUser call is modelled
as succeeding. -/
def verifySignup (s : ServerState) (email otp name : String) (role : Option String)
    (freshId : String) : ServerState × ApiResult SignupResp :=
  if email == "" || otp == "" || name == "" then
    (s, .err ⟨400, "Email, OTP, and name are required", false⟩)
  else
    let userRole := role.getD "auditee"
    if !(userRole == "auditor" || userRole == "auditee" || userRole == "manager") then
      (s, .err ⟨400, "Invalid role", false⟩)
    else if !isEcobankEmailCS email then
      (s, .err ⟨400, "Please use your Ecobank email address (@ecobank.com)", false⟩)
    else
      match findUserByEmail s.users email with
      | some _ =>
        (s, .err ⟨400, "An account with this email already exists. Please log in instead.", false⟩)
      | none =>
        let otpKey := "signup_otp:" ++ lowerStr email
        match kvGet s.signupOtps otpKey with
        | none => (s, .err ⟨400, "Invalid or expired OTP", false⟩)
        | some otpRec =>
          if s.clock > otpRec.expires_at then
            ({ s with signupOtps := kvDel s.signupOtps otpKey },
             .err ⟨400, "OTP has expired. Please request a new one.", false⟩)
          else if !(otpRec.code == otp) then
            (s, .err ⟨400, "Invalid OTP", false⟩)
          else if otpRec.verified then
            (s, .err ⟨400, "OTP has already been used", false⟩)
          else
            verifySignupOk s email name userRole freshId

/-- The creation payload of POST /requests (the `hr_confidential` field is
taken from the request body, `hr_confidential || false` in the source). -/
structure CreateReqInput where
  title : String
  description : String
  due_date : String
  assigned_to_email : String
  department : String
  cc_emails : List String
  hr_confidential : Bool
  deriving DecidableEq, Repr

/-- POST /requests.  `freshReqId` is the generated request id (oracle). -/
def createRequest (s : ServerState) (actorId : String) (inp : CreateReqInput)
    (freshReqId : String) : ServerState × ApiResult Request :=
  match findUser s.users actorId with
  | none => (s, .err ⟨403, "Insufficient permissions", false⟩)
  | some userProfile =>
    if !(userProfile.role == "auditor" || userProfile.role == "manager") then
      (s, .err ⟨403, "Insufficient permissions", false⟩)
    else if inp.title == "" || inp.description == "" || inp.due_date == "" ||
        inp.assigned_to_email == "" || inp.department == "" then
      (s, .err ⟨400, "Missing required fields", false⟩)
    else
      let assignedUser := s.users.find? (fun u => u.email == inp.assigned_to_email)
      let assignedUserId := assignedUser.map (fun u => u.id)
      let request : Request :=
        ⟨freshReqId, inp.title, inp.description, inp.due_date, "in_progress",
         actorId, assignedUserId, inp.assigned_to_email, inp.department,
         inp.cc_emails, inp.hr_confidential, assignedUserId.isNone, s.clock, s.clock⟩
      let entry : AuditEntry :=
        ⟨"request_created", actorId, some freshReqId, none, s.clock,
         .requestCreated inp.title inp.assigned_to_email inp.department inp.cc_emails⟩
      ({ s with
        requests := setRequest s.requests request,
        auditLog := s.auditLog ++ [entry],
        emailLog := s.emailLog ++
          [⟨[inp.assigned_to_email], "New Audit Request: " ++ inp.title, "new_request"⟩],
        clock := s.clock + 1 },
       .ok request)

/-- The read-time transform GET /requests applies for auditor viewers. -/
def hrAnnotate (r : Request) : Request :=
  if r.department == "Human Resources" then { r with hr_confidential := true } else r

/-- GET /requests (role-filtered listing).  Reads only; no state change. -/
def listRequests (s : ServerState) (viewerId : String) : ApiResult (List Request) :=
  match findUser s.users viewerId with
  | none => .err ⟨404, "User profile not found", false⟩
  | some userProfile =>
    if userProfile.role == "auditor" then
      .ok (s.requests.map hrAnnotate)
    else if userProfile.role == "manager" then
      .ok s.requests
    else
      .ok (s.requests.filter (fun r =>
        r.assigned_to == some viewerId ||
        (r.pending_assignment && r.assigned_to_email == userProfile.email)))

/-- The `hasAccess` check of POST /upload (no HR gate). -/
def uploadAccessCheck (request : Request) (actorId : String)
    (profile : Option UserProfile) : Bool :=
  request.assigned_to == some actorId ||
  (request.pending_assignment &&
    (match profile with
     | some p => request.assigned_to_email == p.email
     | none => false)) ||
  (match profile with
   | some p => p.role == "auditor"
   | none => false)

/-- The pending-assignment resolution step of POST /upload: when the
request is pending and the actor profile's email matches, write the
resolved request and log auto_assigned_on_upload; otherwise leave the state
unchanged. -/
def uploadPendResolve (s : ServerState) (actorId requestId : String)
    (request : Request) : ServerState :=
  let profile := findUser s.users actorId
  let pendBranch := request.pending_assignment &&
    (match profile with
     | some p => request.assigned_to_email == p.email
     | none => false)
  let resolvedReq := { request with
    assigned_to := some actorId,
    pending_assignment := false,
    updated_at := s.clock }
  let autoEntry : AuditEntry :=
    ⟨"auto_assigned_on_upload", actorId, some requestId, none, s.clock,
     .autoAssignedOnUpload
       (match profile with | some p => p.email | none => "")
       request.title⟩
  if pendBranch then
    { s with
      requests := setRequest s.requests resolvedReq,
      auditLog := s.auditLog ++ [autoEntry],
      clock := s.clock + 1 }
  else s

/-- The post-access-check path of POST /upload.  The final request write
spreads the original `request` object fetched at the top of the handler,
not the resolved one written by `uploadPendResolve`, exactly as in the
source. -/
def uploadDocumentOk (s : ServerState) (actorId requestId filename comments : String)
    (uploadOk : Bool) (freshDocId : String) (request : Request) :
    ServerState × ApiResult Document :=
  let s₁ := uploadPendResolve s actorId requestId request
  if !uploadOk then (s₁, .err ⟨500, "Failed to upload file", false⟩)
  else
    let filePath := requestId ++ "/" ++ toString s₁.clock ++ "_" ++ filename
    let document : Document :=
      ⟨freshDocId, requestId, filename, filePath, actorId, s₁.clock, comments⟩
    let finalReq := { request with status := "in_progress", updated_at := s₁.clock }
    let entry : AuditEntry :=
      ⟨"document_uploaded", actorId, some requestId, some freshDocId, s₁.clock,
       .documentUploaded filename comments⟩
    ({ s₁ with
      documents := s₁.documents ++ [document],
      requests := setRequest s₁.requests finalReq,
      auditLog := s₁.auditLog ++ [entry],
      clock := s₁.clock + 1 },
     .ok document)

/-- POST /upload.  `uploadOk` is the blob-storage outcome (oracle);
`freshDocId` the generated document id. -/
def uploadDocument (s : ServerState) (actorId requestId filename comments : String)
    (uploadOk : Bool) (freshDocId : String) : ServerState × ApiResult Document :=
  if filename == "" || requestId == "" then
    (s, .err ⟨400, "Missing file or request ID", false⟩)
  else
    match getRequest s.requests requestId with
    | none => (s, .err ⟨404, "Request not found", false⟩)
    | some request =>
      let profile := findUser s.users actorId
      if !uploadAccessCheck request actorId profile then
        (s, .err ⟨403, "Access denied to this request", false⟩)
      else
        uploadDocumentOk s actorId requestId filename comments uploadOk freshDocId request

/-- The `hasAccess` check of GET /requests/:requestId/documents. -/
def docsAccessCheck (request : Request) (actorId : String)
    (profile : Option UserProfile) : Bool :=
  request.assigned_to == some actorId ||
  (request.pending_assignment &&
    (match profile with
     | some p => request.assigned_to_email == p.email
     | none => false)) ||
  (match profile with
   | some p => p.role == "auditor" || p.role == "manager"
   | none => false)

/-- GET /requests/:requestId/documents.  Reads only (the signed-URL refresh
does not touch any stored field modelled here). -/
def listDocuments (s : ServerState) (actorId requestId : String) :
    ApiResult (List Document) :=
  match getRequest s.requests requestId with
  | none => .err ⟨404, "Request not found", false⟩
  | some request =>
    let profile := findUser s.users actorId
    if !docsAccessCheck request actorId profile then
      .err ⟨403, "Access denied to this request", false⟩
    else if request.department == "Human Resources" &&
        (match profile with | some p => p.role == "auditor" | none => false) then
      .err ⟨403, "Access denied to confidential HR department documents. Contact your manager for access.", true⟩
    else
      .ok (s.documents.filter (fun d => d.request_id == requestId))

/-- The per-document SharePoint loop of PUT /requests/:requestId/status: a
successful push logs `document_uploaded_sharepoint`; any failure (download
error, non-ok relay response, or exception) only lands in the results list.
`spOk` is the per-document relay outcome (oracle, keyed by document id). -/
def archiveDocs (uid rid department : String) (spOk : String → Bool)
    (st : ServerState) (docs : List Document) :
    ServerState × List SharePointResult :=
  match docs with
  | [] => (st, [])
  | d :: rest =>
    if spOk d.id then
      let spEntry : AuditEntry :=
        ⟨"document_uploaded_sharepoint", uid, some rid, some d.id, st.clock,
         .documentUploadedSharepoint d.filename department "approved"⟩
      let st' := { st with
        auditLog := st.auditLog ++ [spEntry],
        clock := st.clock + 1 }
      let res := archiveDocs uid rid department spOk st' rest
      (res.1, ⟨d.filename, true⟩ :: res.2)
    else
      let res := archiveDocs uid rid department spOk st rest
      (res.1, ⟨d.filename, false⟩ :: res.2)

/-- The recipient computed for the status-change notification: the resolved
assignee profile if present, otherwise the fallback record built from
`assigned_to_email` — independent of the new status value. -/
def statusChangeRecipient (users : List UserProfile) (req : Request) : String :=
  match req.assigned_to with
  | some uid =>
    match findUser users uid with
    | some u => u.email
    | none => req.assigned_to_email
  | none => req.assigned_to_email

/-- The success path of PUT /requests/:requestId/status, after the
not-found, role and HR gates have passed: persist the new status, log
status_updated, run the SharePoint block when the new status lower-cases to
approved, and emit the status-change email. -/
def updateStatusOk (s : ServerState) (actorId requestId status : String)
    (spOk : String → Bool) (request : Request) : ServerState × ApiResult Request :=
  let updatedRequest := { request with status := status, updated_at := s.clock }
  let statusEntry : AuditEntry :=
    ⟨"status_updated", actorId, some requestId, none, s.clock,
     .statusUpdated request.status status (request.department == "Human Resources")⟩
  let s₁ := { s with
    requests := setRequest s.requests updatedRequest,
    auditLog := s.auditLog ++ [statusEntry],
    clock := s.clock + 1 }
  let s₂ :=
    if lowerStr status == "approved" then
      let requestDocuments := s₁.documents.filter (fun d => d.request_id == requestId)
      let arch := archiveDocs actorId requestId request.department spOk s₁ requestDocuments
      let succCount := (arch.2.filter (fun r => r.success)).length
      let failCount := (arch.2.filter (fun r => !r.success)).length
      let summary : AuditEntry :=
        ⟨"sharepoint_upload_summary", actorId, some requestId, none, arch.1.clock,
         .sharepointUploadSummary requestDocuments.length succCount failCount arch.2⟩
      { arch.1 with
        auditLog := arch.1.auditLog ++ [summary],
        clock := arch.1.clock + 1 }
    else s₁
  let statusMsg : EmailMsg :=
    ⟨[statusChangeRecipient s.users updatedRequest],
     "Request Status Updated: " ++ request.title, "status_change"⟩
  let s₃ := { s₂ with emailLog := s₂.emailLog ++ [statusMsg] }
  (s₃, .ok updatedRequest)

/-- PUT /requests/:requestId/status.  `spOk` is the per-document SharePoint
relay outcome (only consulted when the new status lower-cases to
approved). -/
def updateStatus (s : ServerState) (actorId requestId status : String)
    (spOk : String → Bool) : ServerState × ApiResult Request :=
  if status == "" then (s, .err ⟨400, "Status is required", false⟩)
  else
    match getRequest s.requests requestId with
    | none => (s, .err ⟨404, "Request not found", false⟩)
    | some request =>
      match findUser s.users actorId with
      | none => (s, .err ⟨403, "Insufficient permissions", false⟩)
      | some userProfile =>
        if !(userProfile.role == "auditor" || userProfile.role == "manager") then
          (s, .err ⟨403, "Insufficient permissions", false⟩)
        else if request.department == "Human Resources" && userProfile.role == "auditor" then
          (s, .err ⟨403, "Access denied. Only managers can update status for confidential HR department requests.", false⟩)
        else
          updateStatusOk s actorId requestId status spOk request

/-- Modelled from the spec: the status-change recipient table of section 4.2
(`submitted` notifies the auditor, `approved` and `rejected` notify the
auditee, an unrecognized status uses the generic template addressed to the
auditee).  This table appears in the repository only in the unwired
`sendStatusChangeEmail` of src/src/utils/supabase/email.tsx; the server
calls `triggerStatusChangeEmail`, embedded above, instead.  The definition
exists to compare the spec table with the wired behaviour. -/
def specStatusChangeRecipients (newStatus auditorEmail auditeeEmail : String) :
    List String :=
  if newStatus == "submitted" then [auditorEmail]
  else if newStatus == "approved" then [auditeeEmail]
  else if newStatus == "rejected" then [auditeeEmail]
  else [auditeeEmail]

/-- The per-request invariant of the spec (section 8, first bullet):
`assigned_to` is null iff `pending_assignment` is true. -/
def ReqInv (r : Request) : Prop :=
  r.assigned_to = none ↔ r.pending_assignment = true

instance (r : Request) : Decidable (ReqInv r) := by
  unfold ReqInv; infer_instance

/-- All stored requests satisfy `ReqInv`. -/
def StateInv (s : ServerState) : Prop :=
  ∀ r ∈ s.requests, ReqInv r

instance (s : ServerState) : Decidable (StateInv s) := by
  unfold StateInv; infer_instance

/-! Concrete fixtures used by witnesses and counterexamples. -/

def audUser : UserProfile :=
  ⟨"u_aud", "auditor@ecobank.com", "Aud", "auditor", 0, true⟩

def mgrUser : UserProfile :=
  ⟨"u_mgr", "manager@ecobank.com", "Mgr", "manager", 0, true⟩

def audeUser : UserProfile :=
  ⟨"u_aude", "auditee@ecobank.com", "Aude", "auditee", 0, true⟩

def newUser : UserProfile :=
  ⟨"u_new", "new@ecobank.com", "New", "auditee", 0, true⟩

/-- An HR-department request assigned to the auditee. -/
def hrReq : Request :=
  ⟨"r_hr", "HR Review", "hr docs", "2025-12-01", "in_progress", "u_aud",
   some "u_aude", "auditee@ecobank.com", "Human Resources", [], false, false, 0, 0⟩

/-- A pending-assignment request whose assignee has not signed up yet. -/
def pendReq : Request :=
  ⟨"r_p", "Pending Req", "docs", "2025-12-01", "in_progress", "u_aud",
   none, "new@ecobank.com", "Finance", [], false, true, 0, 0⟩

/-- A plain Finance request assigned to the auditee. -/
def finReq : Request :=
  ⟨"r_f", "Fin Review", "fin docs", "2025-12-01", "in_progress", "u_aud",
   some "u_aude", "auditee@ecobank.com", "Finance", [], false, false, 0, 0⟩

def baseState : ServerState :=
  ⟨[audUser, mgrUser, audeUser], [hrReq, pendReq, finReq], [], [], [], [], [], [], 100⟩

/-- A state whose login OTP record expires exactly at the current clock. -/
def boundaryOtpState : ServerState :=
  { baseState with
    loginOtps := [("login_otp:auditor@ecobank.com",
      ⟨"654321", "auditor@ecobank.com", some "u_aud", 0, 100, false⟩)] }

/-- The state for the C1 failing input: the not-yet-assigned auditee uploads
against the pending request. -/
def c1State : ServerState :=
  ⟨[audUser, newUser], [pendReq], [], [], [], [], [], [], 100⟩

/-- A second pending request for the signup-reassignment scenarios. -/
def pend2 : Request :=
  ⟨"r_q", "Quarterly", "docs", "2025-12-01", "in_progress", "u_aud",
   none, "new2@ecobank.com", "Finance", [], false, true, 0, 0⟩

/-- A state holding a valid signup OTP for new2@ecobank.com and a pending
request assigned to that email. -/
def sgState : ServerState :=
  { baseState with
    requests := baseState.requests ++ [pend2],
    signupOtps := [("signup_otp:new2@ecobank.com",
      ⟨"111222", "new2@ecobank.com", none, 0, 100000, false⟩)] }

/-- A state with two documents attached to the Finance request, for the
approval-archival scenario. -/
def c9State : ServerState :=
  { baseState with
    documents := [⟨"d_a", "r_f", "a.pdf", "pa", "u_aude", 0, ""⟩,
                  ⟨"d_b", "r_f", "b.pdf", "pb", "u_aude", 0, ""⟩] }

/-! Helper lemmas about the embedding. -/

theorem sendOtp_ok_shape (s : ServerState) (email otp : String) (b : Bool)
    (resp : SendOtpResp) (h : (sendOtp s email otp b).2 = .ok resp) :
    resp = ⟨true, "Login OTP generated successfully", b, otp⟩ := by
  unfold sendOtp at h
  split at h
  · simp at h
  · split at h
    · simp at h
    · cases hfind : findUserByEmail s.users email with
      | none => rw [hfind] at h; simp at h
      | some u =>
        rw [hfind] at h
        simp only [ApiResult.ok.injEq] at h
        exact h.symm

theorem sendOtp_reaches_generation (s : ServerState) (email otp : String)
    (b b' : Bool) (resp : SendOtpResp) (h : (sendOtp s email otp b).2 = .ok resp) :
    (sendOtp s email otp b').2 = .ok ⟨true, "Login OTP generated successfully", b', otp⟩ := by
  unfold sendOtp at h ⊢
  split at h
  · simp at h
  · rename_i h1
    split at h
    · simp at h
    · rename_i h2
      rw [if_neg h1, if_neg h2]
      cases hfind : findUserByEmail s.users email with
      | none => rw [hfind] at h; simp at h
      | some u => rfl

/-! Claims C6 and C7. -/

/-- C6 (corrected): the POST /send-otp response is NOT independent of the
email-dispatch outcome.  Whenever the handler reaches OTP generation it
returns HTTP 200 with the same success flag, message and debug_otp whether
the relay succeeded or failed, but the email_sent field of the body equals
the dispatch result, so the two runs return different JSON bodies. -/
theorem c6_sendOtp_response_reveals_dispatch (s : ServerState) (email otp : String)
    (r1 r2 : SendOtpResp)
    (h1 : (sendOtp s email otp true).2 = .ok r1)
    (h2 : (sendOtp s email otp false).2 = .ok r2) :
    r1.success = r2.success ∧ r1.message = r2.message ∧
    r1.debug_otp = r2.debug_otp ∧ r1.email_sent = true ∧
    r2.email_sent = false ∧ r1 ≠ r2 := by
  have e1 := sendOtp_ok_shape s email otp true r1 h1
  have e2 := sendOtp_ok_shape s email otp false r2 h2
  subst e1
  subst e2
  refine ⟨rfl, rfl, rfl, rfl, rfl, ?_⟩
  simp

/-- C6 counterexample: a concrete login-OTP request that reaches OTP
generation returns different JSON bodies depending on whether the email
dispatch succeeded (email_sent true versus false), so the response does
reveal the dispatcher outcome, contradicting the claim. -/
theorem c6_counterexample :
    (sendOtp baseState "auditor@ecobank.com" "123456" true).2 =
      .ok ⟨true, "Login OTP generated successfully", true, "123456"⟩ ∧
    (sendOtp baseState "auditor@ecobank.com" "123456" false).2 =
      .ok ⟨true, "Login OTP generated successfully", false, "123456"⟩ ∧
    (sendOtp baseState "auditor@ecobank.com" "123456" true).2 ≠
      (sendOtp baseState "auditor@ecobank.com" "123456" false).2 :=
  ⟨rfl, rfl, by decide⟩

/-- Witness for c6_sendOtp_response_reveals_dispatch at a concrete input. -/
theorem c6_witness :
    ((⟨true, "Login OTP generated successfully", true, "123456"⟩ : SendOtpResp) ≠
      (⟨true, "Login OTP generated successfully", false, "123456"⟩ : SendOtpResp)) :=
  (c6_sendOtp_response_reveals_dispatch baseState "auditor@ecobank.com" "123456"
    ⟨true, "Login OTP generated successfully", true, "123456"⟩
    ⟨true, "Login OTP generated successfully", false, "123456"⟩ rfl rfl).2.2.2.2.2

/-- C7 (corrected): a login OTP submitted at exactly the stored expiry time
is NOT rejected: the expiry test is strictly `now > expires_at`, so at
`now = expires_at` verification succeeds when the remaining checks pass;
only strictly after the expiry time is the code rejected as expired. -/
theorem c7_expiry_boundary (s : ServerState) (email otp rand : String)
    (otpRec : OTPRecord) (userProfile : UserProfile)
    (hemail : ¬(email = "")) (hotp : ¬(otp = ""))
    (hrec : kvGet s.loginOtps ("login_otp:" ++ lowerStr email) = some otpRec)
    (hv : otpRec.verified = false) (hc : otpRec.code = otp)
    (hprof : resolveLoginProfile s otpRec email = some userProfile) :
    (s.clock = otpRec.expires_at →
      (verifyLoginOtp s email otp rand).2 =
        .ok ⟨userProfile, "otp_session_" ++ toString s.clock ++ "_" ++ rand⟩) ∧
    (s.clock > otpRec.expires_at →
      (verifyLoginOtp s email otp rand).2 =
        .err ⟨400, "Login code has expired. Please request a new one.", false⟩) := by
  constructor
  · intro hb
    have hng : ¬(s.clock > otpRec.expires_at) := by omega
    simp [verifyLoginOtp, hrec, hemail, hotp, hng, hv, hc, hprof]
  · intro hb
    simp [verifyLoginOtp, hrec, hemail, hotp, hb]

/-- C7 counterexample: with the stored record expiring exactly at the
current clock, verification succeeds, contradicting the claim that it must
fail at `now = expires_at`. -/
theorem c7_counterexample :
    boundaryOtpState.clock = 100 ∧
    kvGet boundaryOtpState.loginOtps "login_otp:auditor@ecobank.com" =
      some ⟨"654321", "auditor@ecobank.com", some "u_aud", 0, 100, false⟩ ∧
    (verifyLoginOtp boundaryOtpState "auditor@ecobank.com" "654321" "rand").2 =
      .ok ⟨audUser, "otp_session_100_rand"⟩ :=
  ⟨rfl, rfl, rfl⟩

/-- Witness for c7_expiry_boundary at a concrete boundary input. -/
theorem c7_witness :
    (verifyLoginOtp boundaryOtpState "auditor@ecobank.com" "654321" "rand").2 =
      .ok ⟨audUser, "otp_session_" ++ toString boundaryOtpState.clock ++ "_" ++ "rand"⟩ :=
  (c7_expiry_boundary boundaryOtpState "auditor@ecobank.com" "654321" "rand"
    ⟨"654321", "auditor@ecobank.com", some "u_aud", 0, 100, false⟩ audUser
    (by decide) (by decide) rfl rfl rfl rfl).1 rfl

/-! Claims C1, C3 and C10. -/

/-- C1 (code bug, evaluated at the failing input): the not-yet-assigned
auditee matching the pending-assignment branch uploads successfully; the
branch writes the resolved assignment and logs auto_assigned_on_upload, but
the final status write of the handler spreads the stale original request
object, so the stored request ends with assigned_to = none and
pending_assignment = true — the resolution is clobbered, contradicting the
claim (and the just-written audit entry). -/
theorem c1_upload_clobbers_assignment :
    (uploadDocument c1State "u_new" "r_p" "f.pdf" "" true "d1").2 =
      .ok ⟨"d1", "r_p", "f.pdf", "r_p/101_f.pdf", "u_new", 101, ""⟩ ∧
    getRequest (uploadDocument c1State "u_new" "r_p" "f.pdf" "" true "d1").1.requests "r_p" =
      some { pendReq with status := "in_progress", updated_at := 101 } ∧
    ({ pendReq with status := "in_progress", updated_at := 101 } : Request).pending_assignment = true ∧
    ({ pendReq with status := "in_progress", updated_at := 101 } : Request).assigned_to = none ∧
    (uploadDocument c1State "u_new" "r_p" "f.pdf" "" true "d1").1.auditLog.map
        (fun e => e.action) =
      ["auto_assigned_on_upload", "document_uploaded"] :=
  ⟨rfl, rfl, rfl, rfl, rfl⟩

/-- C3 (confirmed): for an HR-department request and an actor whose profile
role is auditor, updateStatus returns 403 with the whole state (hence the
stored request and its status) unchanged, and listing the documents of the
request returns 403 with confidential = true. -/
theorem c3_hr_auditor_rejected (s : ServerState) (actorId requestId status : String)
    (spOk : String → Bool) (r : Request) (p : UserProfile)
    (hreq : getRequest s.requests requestId = some r)
    (hdept : r.department = "Human Resources")
    (hprof : findUser s.users actorId = some p) (hrole : p.role = "auditor")
    (hst : ¬(status = "")) :
    updateStatus s actorId requestId status spOk =
      (s, .err ⟨403, "Access denied. Only managers can update status for confidential HR department requests.", false⟩) ∧
    listDocuments s actorId requestId =
      .err ⟨403, "Access denied to confidential HR department documents. Contact your manager for access.", true⟩ := by
  constructor
  · simp [updateStatus, hreq, hprof, hrole, hdept, hst]
  · simp [listDocuments, hreq, hprof, docsAccessCheck, hrole, hdept]

/-- Witness for c3_hr_auditor_rejected at a concrete input. -/
theorem c3_witness :
    updateStatus baseState "u_aud" "r_hr" "approved" (fun _ => true) =
      (baseState, .err ⟨403, "Access denied. Only managers can update status for confidential HR department requests.", false⟩) :=
  (c3_hr_auditor_rejected baseState "u_aud" "r_hr" "approved" (fun _ => true)
    hrReq audUser rfl rfl rfl rfl (by decide)).1

theorem uploadDocument_path (s : ServerState) (actorId rid fn cm : String)
    (upOk : Bool) (docId : String) (request : Request)
    (hfn : ¬(fn = "")) (hrid : ¬(rid = ""))
    (hreq : getRequest s.requests rid = some request)
    (hacc : uploadAccessCheck request actorId (findUser s.users actorId) = true) :
    uploadDocument s actorId rid fn cm upOk docId =
      uploadDocumentOk s actorId rid fn cm upOk docId request := by
  simp [uploadDocument, hfn, hrid, hreq, hacc]

/-- C10 (confirmed): the upload access check has no HR-confidentiality
gate: any actor whose profile role is auditor passes it on every request,
including HR-department ones, and a successful upload goes through — while
the same actor is rejected with 403 and confidential = true when listing
the same request's documents. -/
theorem c10_upload_has_no_hr_gate (s : ServerState)
    (actorId requestId filename comments freshDocId : String)
    (r : Request) (p : UserProfile)
    (hreq : getRequest s.requests requestId = some r)
    (hprof : findUser s.users actorId = some p) (hrole : p.role = "auditor")
    (hhr : r.department = "Human Resources")
    (hfn : ¬(filename = "")) (hrid : ¬(requestId = "")) :
    uploadAccessCheck r actorId (findUser s.users actorId) = true ∧
    (∃ doc, (uploadDocument s actorId requestId filename comments true freshDocId).2 =
      .ok doc) ∧
    listDocuments s actorId requestId =
      .err ⟨403, "Access denied to confidential HR department documents. Contact your manager for access.", true⟩ := by
  have hacc : uploadAccessCheck r actorId (findUser s.users actorId) = true := by
    simp [uploadAccessCheck, hprof, hrole]
  refine ⟨hacc, ?_, ?_⟩
  · rw [uploadDocument_path s actorId requestId filename comments true freshDocId r
      hfn hrid hreq hacc]
    exact ⟨_, rfl⟩
  · simp [listDocuments, hreq, hprof, docsAccessCheck, hrole, hhr]

/-- Witness for c10_upload_has_no_hr_gate at a concrete input. -/
theorem c10_witness :
    uploadAccessCheck hrReq "u_aud" (findUser baseState.users "u_aud") = true ∧
    (∃ doc, (uploadDocument baseState "u_aud" "r_hr" "x.pdf" "" true "d9").2 = .ok doc) ∧
    listDocuments baseState "u_aud" "r_hr" =
      .err ⟨403, "Access denied to confidential HR department documents. Contact your manager for access.", true⟩ :=
  c10_upload_has_no_hr_gate baseState "u_aud" "r_hr" "x.pdf" "" "d9" hrReq audUser
    rfl rfl rfl rfl (by decide) (by decide)



/-! Lemmas about setRequest, getRequest, archiveDocs and the success paths. -/

theorem getRequest_id (rs : List Request) (rid : String) (r : Request)
    (h : getRequest rs rid = some r) : r.id = rid := by
  unfold getRequest at h
  have := List.find?_some h
  simpa using this

theorem getRequest_mem (rs : List Request) (rid : String) (r : Request)
    (h : getRequest rs rid = some r) : r ∈ rs := by
  unfold getRequest at h
  exact List.mem_of_find?_eq_some h

theorem archiveDocs_fst_emailLog (uid rid dept : String) (spOk : String → Bool)
    (st : ServerState) (docs : List Document) :
    (archiveDocs uid rid dept spOk st docs).1.emailLog = st.emailLog := by
  induction docs generalizing st with
  | nil => rfl
  | cons d rest ih =>
    simp only [archiveDocs]
    split
    · exact ih _
    · exact ih st

theorem archiveDocs_fst_requests (uid rid dept : String) (spOk : String → Bool)
    (st : ServerState) (docs : List Document) :
    (archiveDocs uid rid dept spOk st docs).1.requests = st.requests := by
  induction docs generalizing st with
  | nil => rfl
  | cons d rest ih =>
    simp only [archiveDocs]
    split
    · exact ih _
    · exact ih st

theorem archiveDocs_fst_documents (uid rid dept : String) (spOk : String → Bool)
    (st : ServerState) (docs : List Document) :
    (archiveDocs uid rid dept spOk st docs).1.documents = st.documents := by
  induction docs generalizing st with
  | nil => rfl
  | cons d rest ih =>
    simp only [archiveDocs]
    split
    · exact ih _
    · exact ih st

theorem find?_map_replace (rs : List Request) (r : Request)
    (hany : rs.any (fun x => x.id == r.id) = true) :
    (rs.map (fun x => if x.id == r.id then r else x)).find? (fun x => x.id == r.id) =
      some r := by
  induction rs with
  | nil => simp at hany
  | cons y ys ih =>
    simp only [List.map_cons]
    by_cases hy : (y.id == r.id) = true
    · rw [if_pos hy]
      rw [List.find?_cons_of_pos _ (by simp)]
    · rw [if_neg hy]
      rw [List.find?_cons_of_neg _ (by simpa using hy)]
      simp only [List.any_cons, Bool.or_eq_true] at hany
      rcases hany with h | h
      · exact absurd h hy
      · exact ih h

theorem find?_append_single (rs : List Request) (r : Request)
    (hall : rs.any (fun x => x.id == r.id) = false) :
    (rs ++ [r]).find? (fun x => x.id == r.id) = some r := by
  induction rs with
  | nil => simp [List.find?]
  | cons y ys ih =>
    simp only [List.any_cons, Bool.or_eq_false_iff] at hall
    simp only [List.cons_append, List.find?, hall.1]
    exact ih hall.2

theorem getRequest_setRequest_self (rs : List Request) (r : Request) :
    getRequest (setRequest rs r) r.id = some r := by
  unfold setRequest getRequest
  by_cases hany : rs.any (fun x => x.id == r.id) = true
  · rw [if_pos hany]
    exact find?_map_replace rs r hany
  · rw [if_neg hany]
    exact find?_append_single rs r (Bool.eq_false_iff.mpr hany)

theorem archiveDocs_snd (uid rid dept : String) (spOk : String → Bool)
    (st : ServerState) (docs : List Document) :
    (archiveDocs uid rid dept spOk st docs).2 =
      docs.map (fun d => (⟨d.filename, spOk d.id⟩ : SharePointResult)) := by
  induction docs generalizing st with
  | nil => rfl
  | cons d rest ih =>
    simp only [archiveDocs]
    split
    · rename_i hsp
      simp [ih, hsp]
    · rename_i hsp
      simp only [Bool.not_eq_true] at hsp
      simp [ih, hsp]

theorem updateStatusOk_snd (s : ServerState) (a rid st : String)
    (spOk : String → Bool) (request : Request) :
    (updateStatusOk s a rid st spOk request).2 =
      .ok { request with status := st, updated_at := s.clock } := rfl

theorem updateStatusOk_emailLog (s : ServerState) (a rid st : String)
    (spOk : String → Bool) (request : Request) :
    (updateStatusOk s a rid st spOk request).1.emailLog =
      s.emailLog ++
        [⟨[statusChangeRecipient s.users { request with status := st, updated_at := s.clock }],
          "Request Status Updated: " ++ request.title, "status_change"⟩] := by
  simp only [updateStatusOk]
  split
  · simp [archiveDocs_fst_emailLog]
  · rfl

theorem updateStatusOk_requests (s : ServerState) (a rid st : String)
    (spOk : String → Bool) (request : Request) :
    (updateStatusOk s a rid st spOk request).1.requests =
      setRequest s.requests { request with status := st, updated_at := s.clock } := by
  simp only [updateStatusOk]
  split
  · simp [archiveDocs_fst_requests]
  · rfl

theorem updateStatus_ok_inv (s : ServerState) (a rid st : String)
    (spOk : String → Bool) (s' : ServerState) (req : Request)
    (h : updateStatus s a rid st spOk = (s', .ok req)) :
    ∃ request, getRequest s.requests rid = some request ∧
      updateStatusOk s a rid st spOk request = (s', .ok req) := by
  unfold updateStatus at h
  split at h
  · simp at h
  · cases hreq : getRequest s.requests rid with
    | none => rw [hreq] at h; simp at h
    | some request =>
      rw [hreq] at h
      cases hprof : findUser s.users a with
      | none => rw [hprof] at h; simp at h
      | some p =>
        rw [hprof] at h
        split at h
        · simp at h
        · split at h
          · simp at h
          · rename_i x1 request2 heq1 x2 p2 heq2
            cases heq1
            cases heq2
            split at h
            · simp at h
            · split at h
              · simp at h
              · exact ⟨request, rfl, h⟩

theorem updateStatus_path (s : ServerState) (a rid st : String)
    (spOk : String → Bool) (request : Request) (p : UserProfile)
    (hst : ¬(st = "")) (hreq : getRequest s.requests rid = some request)
    (hprof : findUser s.users a = some p)
    (hrole : p.role = "auditor" ∨ p.role = "manager")
    (hgate : ¬(request.department = "Human Resources" ∧ p.role = "auditor")) :
    updateStatus s a rid st spOk = updateStatusOk s a rid st spOk request := by
  have hr1 : (p.role == "auditor" || p.role == "manager") = true := by
    rcases hrole with h | h <;> simp [h]
  have hg : (request.department == "Human Resources" && p.role == "auditor") = false := by
    by_cases hd : request.department = "Human Resources"
    · have hr : ¬(p.role = "auditor") := fun hr => hgate ⟨hd, hr⟩
      simp [hr]
    · simp [hd]
  simp [updateStatus, hst, hreq, hprof, hr1, hg]


/-! Claim C5. -/

/-- C5 (corrected): every successful updateStatus call emits exactly one
status-change notification, and its recipient list and subject are computed
by triggerStatusChangeEmail independently of the new status value: the
single recipient is the resolved assignee (profile email, falling back to
assigned_to_email) and the template is the one generic status-update email.
No per-status recipient table is applied by the wired code. -/
theorem c5_status_email_generic (s : ServerState) (actorId requestId status : String)
    (spOk : String → Bool) (s' : ServerState) (req : Request)
    (h : updateStatus s actorId requestId status spOk = (s', .ok req)) :
    s'.emailLog = s.emailLog ++
      [⟨[statusChangeRecipient s.users req], "Request Status Updated: " ++ req.title,
        "status_change"⟩] := by
  obtain ⟨request, hreq, hok⟩ :=
    updateStatus_ok_inv s actorId requestId status spOk s' req h
  have h2 : (updateStatusOk s actorId requestId status spOk request).2 = .ok req := by
    rw [hok]
  rw [updateStatusOk_snd] at h2
  have h3 : ({ request with status := status, updated_at := s.clock } : Request) = req :=
    ApiResult.ok.inj h2
  have h1 : (updateStatusOk s actorId requestId status spOk request).1 = s' := by
    rw [hok]
  subst h3
  rw [← h1, updateStatusOk_emailLog]

/-- C5 counterexample: a successful updateStatus to submitted notifies the
auditee, not the auditor, contradicting the per-status recipient table
stated by the claim. -/
theorem c5_counterexample :
    (updateStatus baseState "u_aud" "r_f" "submitted" (fun _ => true)).2 =
      .ok { finReq with status := "submitted", updated_at := 100 } ∧
    (updateStatus baseState "u_aud" "r_f" "submitted" (fun _ => true)).1.emailLog =
      [⟨["auditee@ecobank.com"], "Request Status Updated: Fin Review", "status_change"⟩] ∧
    specStatusChangeRecipients "submitted" "auditor@ecobank.com" "auditee@ecobank.com" =
      ["auditor@ecobank.com"] ∧
    (["auditee@ecobank.com"] : List String) ≠ ["auditor@ecobank.com"] :=
  ⟨rfl, rfl, rfl, by decide⟩

/-- Witness for c5_status_email_generic at a concrete input. -/
theorem c5_witness :
    (updateStatus baseState "u_aud" "r_f" "submitted" (fun _ => true)).1.emailLog =
      baseState.emailLog ++
        [⟨[statusChangeRecipient baseState.users
            { finReq with status := "submitted", updated_at := 100 }],
          "Request Status Updated: " ++
            ({ finReq with status := "submitted", updated_at := 100 } : Request).title,
          "status_change"⟩] :=
  c5_status_email_generic baseState "u_aud" "r_f" "submitted" (fun _ => true)
    (updateStatus baseState "u_aud" "r_f" "submitted" (fun _ => true)).1
    { finReq with status := "submitted", updated_at := 100 } rfl


/-! Claim C8. -/

/-- C8 (corrected): an auditor viewer is shown every request with the
read-time transform hrAnnotate applied: HR-department requests are forced
to hr_confidential = true, while non-HR requests are returned unchanged and
keep their stored hr_confidential field — which IS a stored flag on the
Request record, persisted by createRequest from the caller-supplied value
(false by default).  Hence hr_confidential = true does not hold exactly on
HR-department requests: a non-HR request stored with the flag set also
lists as confidential. -/
theorem c8_auditor_listing (s : ServerState) (viewerId : String) (p : UserProfile)
    (hprof : findUser s.users viewerId = some p) (hrole : p.role = "auditor") :
    listRequests s viewerId = .ok (s.requests.map hrAnnotate) ∧
    (s.requests.map hrAnnotate).length = s.requests.length ∧
    (∀ r ∈ s.requests, r.department = "Human Resources" →
      hrAnnotate r = { r with hr_confidential := true }) ∧
    (∀ r ∈ s.requests, ¬(r.department = "Human Resources") → hrAnnotate r = r) ∧
    (∀ actorId inp freshReqId s' req,
      createRequest s actorId inp freshReqId = (s', ApiResult.ok req) →
      req.hr_confidential = inp.hr_confidential) := by
  refine ⟨?_, ?_, ?_, ?_, ?_⟩
  · simp [listRequests, hprof, hrole]
  · simp
  · intro r _ hd; simp [hrAnnotate, hd]
  · intro r _ hd; simp [hrAnnotate, hd]
  · intro actorId inp freshReqId s' req h
    unfold createRequest at h
    cases hf : findUser s.users actorId with
    | none => rw [hf] at h; simp at h
    | some q =>
      rw [hf] at h
      split at h
      · simp at h
      · rename_i x1 q2 heq
        cases heq
        split at h
        · simp at h
        · split at h
          · simp at h
          · have h2 := congrArg Prod.snd h
            simp only [ApiResult.ok.injEq] at h2
            rw [← h2]

/-- C8 counterexample: createRequest stores the caller-supplied
hr_confidential flag on a Finance-department request, and the auditor
listing then returns that non-HR request with hr_confidential = true — so
the annotation does not hold exactly on HR-department requests and
hr_confidential is a stored flag, contradicting the claim. -/
theorem c8_counterexample :
    (createRequest baseState "u_aud"
        ⟨"T", "D", "2025", "someone@ecobank.com", "Finance", [], true⟩ "r_x").2 =
      .ok ⟨"r_x", "T", "D", "2025", "in_progress", "u_aud", none,
        "someone@ecobank.com", "Finance", [], true, true, 100, 100⟩ ∧
    getRequest (createRequest baseState "u_aud"
        ⟨"T", "D", "2025", "someone@ecobank.com", "Finance", [], true⟩ "r_x").1.requests "r_x" =
      some ⟨"r_x", "T", "D", "2025", "in_progress", "u_aud", none,
        "someone@ecobank.com", "Finance", [], true, true, 100, 100⟩ ∧
    listRequests (createRequest baseState "u_aud"
        ⟨"T", "D", "2025", "someone@ecobank.com", "Finance", [], true⟩ "r_x").1 "u_aud" =
      .ok [hrAnnotate hrReq, hrAnnotate pendReq, hrAnnotate finReq,
        ⟨"r_x", "T", "D", "2025", "in_progress", "u_aud", none,
          "someone@ecobank.com", "Finance", [], true, true, 100, 100⟩] ∧
    (⟨"r_x", "T", "D", "2025", "in_progress", "u_aud", none,
      "someone@ecobank.com", "Finance", [], true, true, 100, 100⟩ : Request).department ≠
      "Human Resources" ∧
    (⟨"r_x", "T", "D", "2025", "in_progress", "u_aud", none,
      "someone@ecobank.com", "Finance", [], true, true, 100, 100⟩ : Request).hr_confidential =
      true :=
  ⟨rfl, rfl, rfl, by decide, rfl⟩

/-- Witness for c8_auditor_listing at a concrete input. -/
theorem c8_witness :
    listRequests baseState "u_aud" = .ok (baseState.requests.map hrAnnotate) :=
  (c8_auditor_listing baseState "u_aud" audUser rfl rfl).1


/-! Claim C9. -/

theorem updateStatusOk_summary (s : ServerState) (a rid st : String)
    (spOk : String → Bool) (request : Request)
    (hap : (lowerStr st == "approved") = true) :
    (updateStatusOk s a rid st spOk request).1.auditLog.getLast? =
      some ⟨"sharepoint_upload_summary", a, some rid, none,
        (updateStatusOk s a rid st spOk request).1.clock - 1,
        .sharepointUploadSummary
          (s.documents.filter (fun d => d.request_id == rid)).length
          (((s.documents.filter (fun d => d.request_id == rid)).map
            (fun d => (⟨d.filename, spOk d.id⟩ : SharePointResult))).filter
              (fun x => x.success)).length
          (((s.documents.filter (fun d => d.request_id == rid)).map
            (fun d => (⟨d.filename, spOk d.id⟩ : SharePointResult))).filter
              (fun x => !x.success)).length
          ((s.documents.filter (fun d => d.request_id == rid)).map
            (fun d => (⟨d.filename, spOk d.id⟩ : SharePointResult)))⟩ := by
  simp only [updateStatusOk]
  split
  · rw [← List.concat_eq_append, List.getLast?_concat]
    simp [archiveDocs_snd]
  · rename_i hneg
    exact absurd hap hneg


/-- C9 (confirmed): for every updateStatus call that sets the status to
approved (under the hypotheses that make the call succeed), and for every
per-document archival outcome: the new status is persisted to the request
record, the endpoint returns success, and the sharepoint_upload_summary
AuditLog entry appended at the end of the handler records one result per
document of the request — in particular every failing document appears in
it with success = false — while the stored request keeps status approved
regardless of those failures. -/
theorem c9_approval_archival (s : ServerState) (actorId requestId : String)
    (spOk : String → Bool) (r : Request) (p : UserProfile)
    (hreq : getRequest s.requests requestId = some r)
    (hprof : findUser s.users actorId = some p)
    (hrole : p.role = "auditor" ∨ p.role = "manager")
    (hgate : ¬(r.department = "Human Resources" ∧ p.role = "auditor")) :
    (updateStatus s actorId requestId "approved" spOk).2 =
      .ok { r with status := "approved", updated_at := s.clock } ∧
    getRequest (updateStatus s actorId requestId "approved" spOk).1.requests requestId =
      some { r with status := "approved", updated_at := s.clock } ∧
    (updateStatus s actorId requestId "approved" spOk).1.auditLog.getLast? =
      some ⟨"sharepoint_upload_summary", actorId, some requestId, none,
        (updateStatus s actorId requestId "approved" spOk).1.clock - 1,
        .sharepointUploadSummary
          (s.documents.filter (fun d => d.request_id == requestId)).length
          (((s.documents.filter (fun d => d.request_id == requestId)).map
            (fun d => (⟨d.filename, spOk d.id⟩ : SharePointResult))).filter
              (fun x => x.success)).length
          (((s.documents.filter (fun d => d.request_id == requestId)).map
            (fun d => (⟨d.filename, spOk d.id⟩ : SharePointResult))).filter
              (fun x => !x.success)).length
          ((s.documents.filter (fun d => d.request_id == requestId)).map
            (fun d => (⟨d.filename, spOk d.id⟩ : SharePointResult)))⟩ ∧
    (∀ d ∈ s.documents.filter (fun d => d.request_id == requestId),
      spOk d.id = false →
        (⟨d.filename, false⟩ : SharePointResult) ∈
          (s.documents.filter (fun d => d.request_id == requestId)).map
            (fun d => (⟨d.filename, spOk d.id⟩ : SharePointResult))) := by
  have hpath := updateStatus_path s actorId requestId "approved" spOk r p
    (by decide) hreq hprof hrole hgate
  rw [hpath]
  refine ⟨updateStatusOk_snd s actorId requestId "approved" spOk r, ?_, ?_, ?_⟩
  · rw [updateStatusOk_requests]
    have hid : r.id = requestId := getRequest_id s.requests requestId r hreq
    have h5 := getRequest_setRequest_self s.requests
      ({ r with status := "approved", updated_at := s.clock })
    simpa [hid] using h5
  · exact updateStatusOk_summary s actorId requestId "approved" spOk r rfl
  · intro d hd hfail
    have := List.mem_map_of_mem
      (fun d => (⟨d.filename, spOk d.id⟩ : SharePointResult)) hd
    simpa [hfail] using this

/-- Witness for c9_approval_archival at a concrete input (one succeeding
and one failing document). -/
theorem c9_witness :
    (updateStatus c9State "u_aud" "r_f" "approved" (fun i => i == "d_a")).2 =
      .ok { finReq with status := "approved", updated_at := 100 } :=
  (c9_approval_archival c9State "u_aud" "r_f" (fun i => i == "d_a") finReq audUser
    rfl rfl (Or.inl rfl) (by decide)).1


/-! Claim C2: the assigned_to/pending_assignment invariant. -/

theorem mem_setRequest {rs : List Request} {r x : Request}
    (hx : x ∈ setRequest rs r) : x ∈ rs ∨ x = r := by
  unfold setRequest at hx
  split at hx
  · rcases List.mem_map.1 hx with ⟨y, hy, he⟩
    by_cases hyid : (y.id == r.id) = true
    · rw [if_pos hyid] at he
      exact Or.inr he.symm
    · rw [if_neg hyid] at he
      exact Or.inl (he ▸ hy)
  · rcases List.mem_append.1 hx with h | h
    · exact Or.inl h
    · simp at h
      exact Or.inr h

theorem stateInv_setRequest {rs : List Request} {r : Request}
    (hall : ∀ x ∈ rs, ReqInv x) (hr : ReqInv r) :
    ∀ x ∈ setRequest rs r, ReqInv x := by
  intro x hx
  rcases mem_setRequest hx with h | h
  · exact hall x h
  · exact h ▸ hr

theorem applyReassign_inv (uid email : String) (l : List Request) (st : ServerState)
    (hall : ∀ x ∈ st.requests, ReqInv x) :
    ∀ x ∈ (applyReassign uid email st l).requests, ReqInv x := by
  induction l generalizing st with
  | nil => exact hall
  | cons r rest ih =>
    simp only [applyReassign]
    apply ih
    apply stateInv_setRequest hall
    simp [ReqInv]

theorem createRequest_inv (s : ServerState) (actorId : String) (inp : CreateReqInput)
    (freshReqId : String) (hs : StateInv s) :
    StateInv (createRequest s actorId inp freshReqId).1 := by
  intro x hx
  unfold createRequest at hx
  split at hx
  · exact hs x hx
  · split at hx
    · exact hs x hx
    · split at hx
      · exact hs x hx
      · rcases mem_setRequest hx with h | h
        · exact hs x h
        · subst h
          cases hfind : s.users.find? (fun u => u.email == inp.assigned_to_email) with
          | none => simp [ReqInv, hfind]
          | some u => simp [ReqInv, hfind]

theorem updateStatus_inv (s : ServerState) (actorId requestId status : String)
    (spOk : String → Bool) (hs : StateInv s) :
    StateInv (updateStatus s actorId requestId status spOk).1 := by
  intro x hx
  unfold updateStatus at hx
  split at hx
  · exact hs x hx
  · split at hx
    · exact hs x hx
    · split at hx
      · exact hs x hx
      · split at hx
        · exact hs x hx
        · split at hx
          · exact hs x hx
          · rename_i o1 request heq1 o2 p heq2 hrole hgate
            rw [updateStatusOk_requests] at hx
            rcases mem_setRequest hx with h | h
            · exact hs x h
            · subst h
              have hmem : request ∈ s.requests := getRequest_mem _ _ _ heq1
              have := hs request hmem
              simpa [ReqInv] using this

theorem uploadPendResolve_inv (s : ServerState) (actorId requestId : String)
    (request : Request) (hs : StateInv s) :
    ∀ x ∈ (uploadPendResolve s actorId requestId request).requests, ReqInv x := by
  intro x hx
  simp only [uploadPendResolve] at hx
  split at hx
  · rcases mem_setRequest hx with h | h
    · exact hs x h
    · subst h
      simp [ReqInv]
  · exact hs x hx

theorem uploadDocumentOk_inv (s : ServerState) (actorId requestId fn cm : String)
    (upOk : Bool) (docId : String) (request : Request)
    (hmem : request ∈ s.requests) (hs : StateInv s) :
    StateInv (uploadDocumentOk s actorId requestId fn cm upOk docId request).1 := by
  intro x hx
  unfold uploadDocumentOk at hx
  split at hx
  · exact uploadPendResolve_inv s actorId requestId request hs x hx
  · rcases mem_setRequest hx with h | h
    · exact uploadPendResolve_inv s actorId requestId request hs x h
    · subst h
      have := hs request hmem
      simpa [ReqInv] using this

theorem uploadDocument_inv (s : ServerState) (actorId requestId fn cm : String)
    (upOk : Bool) (docId : String) (hs : StateInv s) :
    StateInv (uploadDocument s actorId requestId fn cm upOk docId).1 := by
  intro x hx
  simp only [uploadDocument] at hx
  split at hx
  · exact hs x hx
  · split at hx
    · exact hs x hx
    · split at hx
      · exact hs x hx
      · rename_i o1 request heq1 hacc
        have hmem : request ∈ s.requests := getRequest_mem _ _ _ heq1
        exact uploadDocumentOk_inv s actorId requestId fn cm upOk docId request hmem hs x hx

theorem verifySignupOk_inv (s : ServerState) (email name roleStr freshId : String)
    (hs : StateInv s) :
    StateInv (verifySignupOk s email name roleStr freshId).1 := by
  intro x hx
  simp only [verifySignupOk] at hx
  refine applyReassign_inv freshId email _ _ ?_ x hx
  intro y hy
  exact hs y hy

theorem verifySignup_inv (s : ServerState) (email otp name : String)
    (role : Option String) (freshId : String) (hs : StateInv s) :
    StateInv (verifySignup s email otp name role freshId).1 := by
  intro x hx
  simp only [verifySignup] at hx
  repeat' split at hx
  all_goals try exact hs x hx
  all_goals exact verifySignupOk_inv _ _ _ _ _ hs x hx

/-- C2 (confirmed): the invariant "assigned_to is null iff
pending_assignment is true" holds of every request stored by createRequest
(last conjunct) and is preserved across every operation that writes a
Request record: createRequest, verifySignup (the signup auto-assignment),
uploadDocument and updateStatus. -/
theorem c2_assigned_iff_pending (s : ServerState)
    (actorId freshReqId email otp name freshId rid fn cm docId status : String)
    (inp : CreateReqInput) (role : Option String) (upOk : Bool)
    (spOk : String → Bool) (hs : StateInv s) :
    StateInv (createRequest s actorId inp freshReqId).1 ∧
    StateInv (verifySignup s email otp name role freshId).1 ∧
    StateInv (uploadDocument s actorId rid fn cm upOk docId).1 ∧
    StateInv (updateStatus s actorId rid status spOk).1 ∧
    (∀ s' req, createRequest s actorId inp freshReqId = (s', .ok req) → ReqInv req) := by
  refine ⟨createRequest_inv s actorId inp freshReqId hs,
    verifySignup_inv s email otp name role freshId hs,
    uploadDocument_inv s actorId rid fn cm upOk docId hs,
    updateStatus_inv s actorId rid status spOk hs, ?_⟩
  intro s' req h
  unfold createRequest at h
  cases hf : findUser s.users actorId with
  | none => rw [hf] at h; simp at h
  | some q =>
    rw [hf] at h
    split at h
    · simp at h
    · rename_i x1 q2 heq
      cases heq
      split at h
      · simp at h
      · split at h
        · simp at h
        · have h2 := congrArg Prod.snd h
          simp only [ApiResult.ok.injEq] at h2
          rw [← h2]
          cases hfind : s.users.find? (fun u => u.email == inp.assigned_to_email) with
          | none => simp [ReqInv, hfind]
          | some u => simp [ReqInv, hfind]

/-- Witness for c2_assigned_iff_pending at a concrete input. -/
theorem c2_witness :
    StateInv (createRequest baseState "u_aud"
      ⟨"T", "D", "2025", "x@ecobank.com", "Finance", [], false⟩ "r_w").1 ∧
    StateInv (verifySignup baseState "e@ecobank.com" "1" "N" (some "auditee") "u_w").1 ∧
    StateInv (uploadDocument baseState "u_aude" "r_f" "f.pdf" "" true "d_w").1 ∧
    StateInv (updateStatus baseState "u_aud" "r_f" "approved" (fun _ => true)).1 ∧
    (∀ s' req, createRequest baseState "u_aud"
      ⟨"T", "D", "2025", "x@ecobank.com", "Finance", [], false⟩ "r_w" = (s', .ok req) →
      ReqInv req) :=
  c2_assigned_iff_pending baseState "u_aud" "r_w" "e@ecobank.com" "1" "N" "u_w"
    "r_f" "f.pdf" "" "d_w" "approved"
    ⟨"T", "D", "2025", "x@ecobank.com", "Finance", [], false⟩ (some "auditee")
    true (fun _ => true) (by decide)


/-! Claim C4: lemmas about reassignment. -/

theorem find?_map_replace_ne (rs : List Request) (r : Request) (rid : String)
    (h : ¬(r.id = rid)) :
    (rs.map (fun x => if x.id == r.id then r else x)).find? (fun x => x.id == rid) =
      rs.find? (fun x => x.id == rid) := by
  induction rs with
  | nil => rfl
  | cons y ys ih =>
    simp only [List.map_cons, List.find?_cons]
    by_cases hy : (y.id == r.id) = true
    · have hyid : y.id = r.id := by simpa using hy
      have h1 : (r.id == rid) = false := by simp [h]
      have h2 : (y.id == rid) = false := by simp [hyid, h]
      rw [if_pos hy, h1, h2]
      simp only [Bool.false_eq_true, if_false]
      exact ih
    · rw [if_neg hy, ih]

theorem find?_append_single_ne (rs : List Request) (r : Request) (rid : String)
    (h : ¬(r.id = rid)) :
    (rs ++ [r]).find? (fun x => x.id == rid) = rs.find? (fun x => x.id == rid) := by
  induction rs with
  | nil =>
    simp only [List.nil_append, List.find?_cons]
    have h1 : (r.id == rid) = false := by simp [h]
    rw [h1]
  | cons y ys ih =>
    simp only [List.cons_append, List.find?_cons]
    rw [ih]

theorem getRequest_setRequest_ne (rs : List Request) (r : Request) (rid : String)
    (h : ¬(r.id = rid)) :
    getRequest (setRequest rs r) rid = getRequest rs rid := by
  unfold setRequest getRequest
  split
  · exact find?_map_replace_ne rs r rid h
  · exact find?_append_single_ne rs r rid h

theorem applyReassign_getRequest_notmem (uid email : String) (l : List Request)
    (st : ServerState) (rid : String) (hnot : ∀ r ∈ l, ¬(r.id = rid)) :
    getRequest (applyReassign uid email st l).requests rid =
      getRequest st.requests rid := by
  induction l generalizing st with
  | nil => rfl
  | cons r rest ih =>
    simp only [applyReassign]
    rw [ih _ (fun q hq => hnot q (List.mem_cons_of_mem _ hq))]
    exact getRequest_setRequest_ne _ _ _ (hnot r (List.mem_cons_self _ _))

theorem applyReassign_getRequest (uid email : String) (l : List Request)
    (st : ServerState) (hnd : (l.map Request.id).Nodup) :
    ∀ r ∈ l, ∃ t, getRequest (applyReassign uid email st l).requests r.id =
      some { r with assigned_to := some uid, pending_assignment := false,
                    updated_at := t } := by
  induction l generalizing st with
  | nil => intro r hr; cases hr
  | cons q rest ih =>
    intro r hr
    simp only [List.map_cons, List.nodup_cons] at hnd
    rcases List.mem_cons.1 hr with rfl | hr2
    · refine ⟨st.clock, ?_⟩
      simp only [applyReassign]
      rw [applyReassign_getRequest_notmem uid email rest _ r.id ?_]
      · have h5 := getRequest_setRequest_self st.requests
          ({ r with assigned_to := some uid, pending_assignment := false,
                    updated_at := st.clock })
        simpa using h5
      · intro x hx he
        exact hnd.1 (he ▸ List.mem_map_of_mem Request.id hx)
    · simp only [applyReassign]
      exact ih _ hnd.2 r hr2

theorem applyReassign_audit_actions (uid email : String) (l : List Request)
    (st : ServerState) :
    ((applyReassign uid email st l).auditLog.filter
        (fun e => e.action == "auto_assigned_request")).map (fun e => e.request_id) =
      ((st.auditLog.filter (fun e => e.action == "auto_assigned_request")).map
        (fun e => e.request_id)) ++ l.map (fun r => some r.id) := by
  induction l generalizing st with
  | nil => simp [applyReassign]
  | cons r rest ih =>
    simp only [applyReassign]
    rw [ih]
    simp [autoAssignEntry, List.filter_append]


theorem verifySignup_ok_inv (s : ServerState) (email otp name : String)
    (role : Option String) (freshId : String) (s' : ServerState) (resp : SignupResp)
    (h : verifySignup s email otp name role freshId = (s', .ok resp)) :
    verifySignupOk s email name (role.getD "auditee") freshId = (s', .ok resp) := by
  simp only [verifySignup] at h
  repeat' split at h
  all_goals try simp at h
  exact h

/-- C4 (corrected): only when the new user's role is auditee does a
successful verifySignupCode call reassign the stored pending requests with
matching assigned_to_email: each such request is rewritten with
assigned_to = the new user id and pending_assignment = false, exactly one
auto_assigned_request AuditLog entry is appended per reassigned request
(in order), and the response reports their count.  For auditor or manager
signups the reassignment loop is skipped entirely. -/
theorem c4_auditee_reassignment (s : ServerState) (email otp name freshId : String)
    (s' : ServerState) (resp : SignupResp)
    (hnd : (s.requests.map Request.id).Nodup)
    (h : verifySignup s email otp name (some "auditee") freshId = (s', .ok resp)) :
    (∀ r ∈ s.requests, r.assigned_to_email = email → r.pending_assignment = true →
      ∃ t, getRequest s'.requests r.id =
        some { r with assigned_to := some freshId, pending_assignment := false,
                      updated_at := t }) ∧
    ((s'.auditLog.filter (fun e => e.action == "auto_assigned_request")).map
        (fun e => e.request_id) =
      ((s.auditLog.filter (fun e => e.action == "auto_assigned_request")).map
        (fun e => e.request_id)) ++
      (s.requests.filter (fun r => r.assigned_to_email == email && r.pending_assignment)).map
        (fun r => some r.id)) ∧
    resp.pending_requests_assigned =
      (s.requests.filter (fun r => r.assigned_to_email == email && r.pending_assignment)).length ∧
    resp.role = "auditee" := by
  have hok := verifySignup_ok_inv s email otp name (some "auditee") freshId s' resp h
  have h1 : (verifySignupOk s email name "auditee" freshId).1 = s' := congrArg Prod.fst hok
  have h2 : (verifySignupOk s email name "auditee" freshId).2 = .ok resp := congrArg Prod.snd hok
  have hlit : (verifySignupOk s email name "auditee" freshId).2 =
      .ok ⟨freshId, email, trimStr name, "auditee",
        (s.requests.filter (fun r => r.assigned_to_email == email && r.pending_assignment)).length⟩ :=
    rfl
  rw [hlit] at h2
  have hresp : resp = ⟨freshId, email, trimStr name, "auditee",
      (s.requests.filter (fun r => r.assigned_to_email == email && r.pending_assignment)).length⟩ :=
    (ApiResult.ok.inj h2).symm
  subst hresp
  refine ⟨?_, ?_, rfl, rfl⟩
  · intro r hr hmail hpend
    have hs'req : s'.requests = (applyReassign freshId email
        { s with
          users := setUser s.users ⟨freshId, email, trimStr name, "auditee", s.clock, true⟩,
          signupOtps := kvDel s.signupOtps ("signup_otp:" ++ lowerStr email),
          clock := s.clock + 1 }
        (s.requests.filter (fun r => r.assigned_to_email == email && r.pending_assignment))).requests := by
      rw [← h1]
      rfl
    rw [hs'req]
    have hmem : r ∈ s.requests.filter
        (fun r => r.assigned_to_email == email && r.pending_assignment) := by
      rw [List.mem_filter]
      exact ⟨hr, by simp [hmail, hpend]⟩
    have hndp : ((s.requests.filter
        (fun r => r.assigned_to_email == email && r.pending_assignment)).map
          Request.id).Nodup :=
      List.Nodup.sublist (List.Sublist.map _ (List.filter_sublist _)) hnd
    exact applyReassign_getRequest freshId email _ _ hndp r hmem
  · have hs'aud : s'.auditLog = (applyReassign freshId email
        { s with
          users := setUser s.users ⟨freshId, email, trimStr name, "auditee", s.clock, true⟩,
          signupOtps := kvDel s.signupOtps ("signup_otp:" ++ lowerStr email),
          clock := s.clock + 1 }
        (s.requests.filter (fun r => r.assigned_to_email == email && r.pending_assignment))).auditLog ++
        [⟨"user_created", freshId, none, none,
          (applyReassign freshId email
            { s with
              users := setUser s.users ⟨freshId, email, trimStr name, "auditee", s.clock, true⟩,
              signupOtps := kvDel s.signupOtps ("signup_otp:" ++ lowerStr email),
              clock := s.clock + 1 }
            (s.requests.filter (fun r => r.assigned_to_email == email && r.pending_assignment))).clock,
          .userCreated email (trimStr name) "auditee"⟩] := by
      rw [← h1]
      rfl
    rw [hs'aud, List.filter_append]
    simp [applyReassign_audit_actions]

/-- C4 counterexample: a successful signup with role auditor leaves the
matching pending request unassigned (assigned_to = none,
pending_assignment = true) and appends no auto_assigned_request entry,
contradicting the claim that reassignment happens for any role. -/
theorem c4_counterexample :
    (verifySignup sgState "new2@ecobank.com" "111222" "Nu" (some "auditor") "u_n2").2 =
      .ok ⟨"u_n2", "new2@ecobank.com", "Nu", "auditor", 0⟩ ∧
    pend2.assigned_to_email = "new2@ecobank.com" ∧
    pend2.pending_assignment = true ∧
    getRequest (verifySignup sgState "new2@ecobank.com" "111222" "Nu"
      (some "auditor") "u_n2").1.requests "r_q" = some pend2 ∧
    ((verifySignup sgState "new2@ecobank.com" "111222" "Nu"
      (some "auditor") "u_n2").1.auditLog.filter
        (fun e => e.action == "auto_assigned_request")) = [] :=
  ⟨rfl, rfl, rfl, rfl, rfl⟩

/-- Witness for c4_auditee_reassignment at a concrete input. -/
theorem c4_witness :
    ((verifySignup sgState "new2@ecobank.com" "111222" "Nu"
        (some "auditee") "u_n2").1.auditLog.filter
        (fun e => e.action == "auto_assigned_request")).map (fun e => e.request_id) =
      ((sgState.auditLog.filter (fun e => e.action == "auto_assigned_request")).map
        (fun e => e.request_id)) ++
      (sgState.requests.filter
        (fun r => r.assigned_to_email == "new2@ecobank.com" && r.pending_assignment)).map
        (fun r => some r.id) :=
  (c4_auditee_reassignment sgState "new2@ecobank.com" "111222" "Nu" "u_n2"
    (verifySignup sgState "new2@ecobank.com" "111222" "Nu" (some "auditee") "u_n2").1
    ⟨"u_n2", "new2@ecobank.com", "Nu", "auditee", 1⟩ (by decide) rfl).2.1

end ADERM
